import Mathlib

/-!
Verification of the property-image compositor core against its specification.

The embedding models the Python sources `src/compositor/{project,grid,labels,
compose,psd_export}.py` shallowly: machine floats become exact rationals (ℚ),
fallible renderer calls become `Except String` values, the filesystem becomes
a finite map from path strings to file kinds, and the external 2D drawing
capability (out of scope per the spec) is abstracted to the data the core
hands it (screen positions, layer stacks, pixel rasters with "over"
compositing).
-/

namespace Compositor

/-- A 3D world point `[e, n, z]` as read from the sidecar. -/
structure Pt3 where
  e : ℚ
  n : ℚ
  z : ℚ
deriving DecidableEq, Repr

/-- A homogeneous 4-vector. -/
structure Vec4 where
  x : ℚ
  y : ℚ
  z : ℚ
  w : ℚ
deriving DecidableEq, Repr

/-- A 4×4 matrix, stored by rows. -/
structure Mat4 where
  r0 : Vec4
  r1 : Vec4
  r2 : Vec4
  r3 : Vec4
deriving DecidableEq, Repr

/-- Dot product of a matrix row with a homogeneous vector. -/
def dot4 (r v : Vec4) : ℚ :=
  r.x * v.x + r.y * v.y + r.z * v.z + r.w * v.w

/-- Matrix–vector multiply (`m @ v` in numpy). -/
def matVec (m : Mat4) (v : Vec4) : Vec4 :=
  ⟨dot4 m.r0 v, dot4 m.r1 v, dot4 m.r2 v, dot4 m.r3 v⟩

/-- `np.array(l).reshape((4, 4), order='F')`: column-major reshape of a flat
16-element matrix list, so entry `(i, j)` is `l[j*4 + i]`. -/
def reshapeF (l : List ℚ) : Mat4 :=
  ⟨⟨l.getD 0 0, l.getD 4 0, l.getD 8 0, l.getD 12 0⟩,
   ⟨l.getD 1 0, l.getD 5 0, l.getD 9 0, l.getD 13 0⟩,
   ⟨l.getD 2 0, l.getD 6 0, l.getD 10 0, l.getD 14 0⟩,
   ⟨l.getD 3 0, l.getD 7 0, l.getD 11 0, l.getD 15 0⟩⟩

/-- `project.world_to_screen`: project a 3D point to 2D screen coordinates.
Applies the optional ENU→ECEF transform to the homogeneous point, then the
view and projection matrices; returns `none` (rejection) when the clip-space
w component is ≤ 0, else the perspective-divided point mapped to the screen
with a vertical flip. -/
def world_to_screen (point_3d : Pt3) (view_matrix_1d proj_matrix_1d : List ℚ)
    (viewport_width : ℚ := 2048) (viewport_height : ℚ := 1536)
    (enu_transform : Option Mat4 := none) : Option (ℚ × ℚ) :=
  let view_matrix := reshapeF view_matrix_1d
  let proj_matrix := reshapeF proj_matrix_1d
  let v_world : Vec4 := ⟨point_3d.e, point_3d.n, point_3d.z, 1⟩
  let v_world := match enu_transform with
    | some t => matVec t v_world
    | none => v_world
  let v_camera := matVec view_matrix v_world
  let v_clip := matVec proj_matrix v_camera
  if v_clip.w ≤ 0 then none
  else
    some ((v_clip.x / v_clip.w + 1) * (1 / 2) * viewport_width,
          (1 - v_clip.y / v_clip.w) * (1 / 2) * viewport_height)

/-- The clip-space vector computed by `world_to_screen` before the w-check:
optional frame transform, then view, then projection. -/
def clip_of (point_3d : Pt3) (view_matrix_1d proj_matrix_1d : List ℚ)
    (enu_transform : Option Mat4) : Vec4 :=
  let v_world : Vec4 := ⟨point_3d.e, point_3d.n, point_3d.z, 1⟩
  let v_world := match enu_transform with
    | some t => matVec t v_world
    | none => v_world
  matVec (reshapeF proj_matrix_1d) (matVec (reshapeF view_matrix_1d) v_world)

/-- `grid._nice_round`: round to a "nice" number (1, 2, 5, 10, 20, 25, 50, …).
`Int.log 10 value` is `⌊log10 value⌋` for positive rationals, matching the
source's `math.floor(math.log10(value))`. -/
def nice_round (value : ℚ) : ℚ :=
  if value ≤ 0 then 10
  else
    let exponent : ℤ := Int.log 10 value
    let fraction : ℚ := value / (10 : ℚ) ^ exponent
    let nice : ℚ :=
      if fraction ≤ 3 / 2 then 1
      else if fraction ≤ 7 / 2 then 2
      else if fraction ≤ 15 / 2 then 5
      else 10
    nice * (10 : ℚ) ^ exponent

/-- Minimum of a list of rationals (`np.min`); 0 on the empty list, which the
source never hits (guarded by the < 2 points check). -/
def listMin : List ℚ → ℚ
  | [] => 0
  | [x] => x
  | x :: y :: t => min x (listMin (y :: t))

/-- Maximum of a list of rationals (`np.max`); 0 on the empty list. -/
def listMax : List ℚ → ℚ
  | [] => 0
  | [x] => x
  | x :: y :: t => max x (listMax (y :: t))

/-- One grid polyline: the two endpoints the source stores per line. -/
structure GridLine where
  p0 : Pt3
  p1 : Pt3
deriving DecidableEq, Repr

/-- The dict returned by `grid.compute_grid`. -/
structure GridSpec where
  ground_z : ℚ
  cell_size : ℚ
  east_lines : List GridLine
  north_lines : List GridLine
deriving DecidableEq, Repr

/-- Fuel-indexed unfolding of the source's accumulation loop
`while e <= hi: emit e; e += cs`. -/
def stepValsAux : ℕ → ℚ → ℚ → ℚ → List ℚ
  | 0, _, _, _ => []
  | fuel + 1, e, hi, cs => if e ≤ hi then e :: stepValsAux fuel (e + cs) hi cs else []

/-- Fuel sufficient for the loop when the step is positive. -/
def stepFuel (lo hi cs : ℚ) : ℕ :=
  (⌊(hi - lo) / cs⌋).toNat + 1

/-- Values visited by `e = lo; while e <= hi: …; e += cs` for a positive step. -/
def stepVals (lo hi cs : ℚ) : List ℚ :=
  stepValsAux (stepFuel lo hi cs) lo hi cs

/-- `grid.compute_grid`: derive the flat Euclidean reference grid from the
boundary, with the source's defaults `extend_factor=3.0, target_cells=15`. -/
def compute_grid (boundary_3d : List Pt3) (extend_factor : ℚ := 3)
    (target_cells : ℚ := 15) : GridSpec :=
  if boundary_3d.length < 2 then
    { ground_z := 0, cell_size := 10, east_lines := [], north_lines := [] }
  else
    let ground_z := (boundary_3d.map Pt3.z).sum / (boundary_3d.length : ℚ)
    let e_min := listMin (boundary_3d.map Pt3.e)
    let e_max := listMax (boundary_3d.map Pt3.e)
    let n_min := listMin (boundary_3d.map Pt3.n)
    let n_max := listMax (boundary_3d.map Pt3.n)
    let bbox_size := max (e_max - e_min) (n_max - n_min)
    let cell_size := nice_round (bbox_size / target_cells)
    let cell_size := if cell_size < 1 then 1 else cell_size
    let center_e := (e_min + e_max) / 2
    let center_n := (n_min + n_max) / 2
    let extent := bbox_size * extend_factor / 2
    let grid_e_min := (⌊(center_e - extent) / cell_size⌋ : ℚ) * cell_size
    let grid_e_max := (⌈(center_e + extent) / cell_size⌉ : ℚ) * cell_size
    let grid_n_min := (⌊(center_n - extent) / cell_size⌋ : ℚ) * cell_size
    let grid_n_max := (⌈(center_n + extent) / cell_size⌉ : ℚ) * cell_size
    let east_lines := (stepVals grid_e_min grid_e_max cell_size).map fun e =>
      { p0 := ⟨e, grid_n_min, ground_z⟩, p1 := ⟨e, grid_n_max, ground_z⟩ }
    let north_lines := (stepVals grid_n_min grid_n_max cell_size).map fun n =>
      { p0 := ⟨grid_e_min, n, ground_z⟩, p1 := ⟨grid_e_max, n, ground_z⟩ }
    { ground_z := ground_z, cell_size := cell_size,
      east_lines := east_lines, north_lines := north_lines }

/-- Is `p` strictly inside the un-extended bounding box of the boundary `b`
(the min/max of the boundary's east/north components)? -/
def insideBboxB (p : Pt3) (b : List Pt3) : Bool :=
  decide (listMin (b.map Pt3.e) < p.e) && decide (p.e < listMax (b.map Pt3.e)) &&
  decide (listMin (b.map Pt3.n) < p.n) && decide (p.n < listMax (b.map Pt3.n))

/-- The flat column-major identity matrix, a concrete camera fixture. -/
def identMatrixList : List ℚ :=
  [1, 0, 0, 0, 0, 1, 0, 0, 0, 0, 1, 0, 0, 0, 0, 1]

/-! ### Labels (`labels.py`)

The external 2D drawing capability is out of scope (spec §1, §6); a produced
label layer is modelled by the screen position the source resolves and hands
to the drawing calls.  The selection logic (projection rejection, the 100px
viewport margin, the empty-text skip) is translated from the source. -/

/-- `labels.draw_single_label`: resolve a single street label.  Returns
`none` when the anchor projects behind the camera or the projected anchor is
more than 100px outside the output surface; otherwise the label layer is
produced at the returned screen position. -/
def draw_single_label (width height : ℚ) (text : String) (anchor_3d : Pt3)
    (view_matrix proj_matrix : List ℚ) (viewport_width viewport_height : ℚ)
    (enu_transform : Option Mat4) : Option (ℚ × ℚ) :=
  match world_to_screen anchor_3d view_matrix proj_matrix
      viewport_width viewport_height enu_transform with
  | none => none
  | some (screen_x, screen_y) =>
    if screen_x < -100 ∨ width + 100 < screen_x ∨
       screen_y < -100 ∨ height + 100 < screen_y then none
    else some (screen_x, screen_y)

/-- `labels.draw_street_label_layers`: one layer per label, skipping labels
with empty text and labels whose `draw_single_label` call yields nothing. -/
def draw_street_label_layers (width height : ℚ) (labels : List (String × Pt3))
    (view_matrix proj_matrix : List ℚ) (viewport_width viewport_height : ℚ)
    (enu_transform : Option Mat4) : List (String × (ℚ × ℚ)) :=
  labels.filterMap fun l =>
    if l.1 = "" then none
    else
      (draw_single_label width height l.1 l.2 view_matrix proj_matrix
        viewport_width viewport_height enu_transform).map fun pos => (l.1, pos)

/-! ### Pixel rasters and flattening (`compose._export_flat_png`) -/

/-- One RGBA pixel (premultiplied alpha, as Cairo ARGB32 stores it). -/
structure Pixel where
  r : ℚ
  g : ℚ
  b : ℚ
  a : ℚ
deriving DecidableEq, Repr

/-- A raster is pixel data indexed by coordinates. -/
def Raster : Type := ℕ → ℕ → Pixel

/-- The fully transparent raster a fresh `cairo.ImageSurface` starts as. -/
def blankRaster : Raster := fun _ _ => ⟨0, 0, 0, 0⟩

/-- Cairo's default OVER operator on premultiplied pixels:
`out = src + dst·(1 − src.a)`. -/
def pixelOver (src dst : Pixel) : Pixel :=
  ⟨src.r + dst.r * (1 - src.a), src.g + dst.g * (1 - src.a),
   src.b + dst.b * (1 - src.a), src.a + dst.a * (1 - src.a)⟩

/-- Paint `src` over the whole destination raster (`ctx.paint()`). -/
def paintOver (dst src : Raster) : Raster :=
  fun x y => pixelOver (src x y) (dst x y)

/-- One layer of the stack: name, pixel content, visibility flag. -/
structure Layer (S : Type) where
  name : String
  surface : S
  visible : Bool

/-- `compose._export_flat_png`: flatten all visible layers, in stack order,
onto a fresh transparent composite; `none` when there are no layers (the
source returns without writing a file). -/
def export_flat_png (layers : List (Layer Raster)) : Option Raster :=
  match layers with
  | [] => none
  | _ :: _ =>
    some (layers.foldl
      (fun composite l => if l.visible then paintOver composite l.surface else composite)
      blankRaster)

/-- The flattening the spec describes: keep exactly the visible layers, in
stack order, and paint them with OVER onto a fresh transparent composite. -/
def flattenVisibleSpec (layers : List (Layer Raster)) : Raster :=
  (layers.filter (·.visible)).foldl (fun composite l => paintOver composite l.surface)
    blankRaster

/-! ### Layer-stack assembly (`compose.compose_image`, layer-building part)

Each renderer call is a fallible external computation; its outcome is an
`Except String` value (an `error` is a raised exception caught by the
source's `try`/`except`).  `draw_boundary_layer` and `draw_acres_layer`
return an optional surface (`None` means the defined empty outcome). -/

/-- The per-label render outcomes of one `draw_street_label_layers` call:
for each label, its text and the outcome of its `draw_single_label` call
(`error` = raised, `ok none` = dropped, `ok (some s)` = rendered surface).
An exception raised by any single label's render propagates out of the whole
call, discarding every label surface already produced. -/
def draw_street_labels_run {S : Type} :
    List (String × Except String (Option S)) → Except String (List (String × S))
  | [] => .ok []
  | (text, r) :: rest =>
    if text = "" then draw_street_labels_run rest
    else
      match r with
      | .error e => .error e
      | .ok none => draw_street_labels_run rest
      | .ok (some s) =>
        match draw_street_labels_run rest with
        | .error e => .error e
        | .ok tl => .ok ((text, s) :: tl)

/-- `compose.compose_image`, layer-building section: background, then grid
(hidden, try/except), boundary (try/except, optional), and for stage ≥ 2 the
street-label layers (one try/except around the whole group) and the acres
layer (try/except, optional). -/
def compose_layers {S : Type} (bg : S) (gridR : Except String S)
    (boundaryR : Except String (Option S))
    (labelInputs : List (String × Except String (Option S)))
    (acresR : Except String (Option S)) (acresName : String) (stage : ℕ) :
    List (Layer S) :=
  let layers : List (Layer S) := [⟨"Background", bg, true⟩]
  let layers := match gridR with
    | .ok s => layers ++ [⟨"Grid (Reference)", s, false⟩]
    | .error _ => layers
  let layers := match boundaryR with
    | .ok (some s) => layers ++ [⟨"Boundary", s, true⟩]
    | .ok none => layers
    | .error _ => layers
  if 2 ≤ stage then
    let layers := match draw_street_labels_run labelInputs with
      | .ok pairs => layers ++ pairs.map fun p => ⟨"Label: " ++ p.1, p.2, true⟩
      | .error _ => layers
    match acresR with
    | .ok (some s) => layers ++ [⟨acresName, s, true⟩]
    | .ok none => layers
    | .error _ => layers
  else layers

/-- The layers the grid render unit contributes on its own outcome. -/
def gridContribution {S : Type} : Except String S → List (Layer S)
  | .ok s => [⟨"Grid (Reference)", s, false⟩]
  | .error _ => []

/-- The layers the boundary render unit contributes on its own outcome. -/
def boundaryContribution {S : Type} : Except String (Option S) → List (Layer S)
  | .ok (some s) => [⟨"Boundary", s, true⟩]
  | .ok none => []
  | .error _ => []

/-- The layers the street-label render unit contributes on its own outcome:
nothing at all when any single label's render raised. -/
def labelContribution {S : Type}
    (labelInputs : List (String × Except String (Option S))) : List (Layer S) :=
  match draw_street_labels_run labelInputs with
  | .ok pairs => pairs.map fun p => ⟨"Label: " ++ p.1, p.2, true⟩
  | .error _ => []

/-- The layers the acres render unit contributes on its own outcome. -/
def acresContribution {S : Type} (acresName : String) :
    Except String (Option S) → List (Layer S)
  | .ok (some s) => [⟨acresName, s, true⟩]
  | .ok none => []
  | .error _ => []

/-! ### Frame-transform plumbing (`compose.compose_image`, geometry part) -/

/-- The projection calls `compose_image` issues: boundary points through
`draw_boundary_layer` and label anchors through `draw_street_label_layers`
both receive the built `enu_transform`; the acres centroid is projected by
`draw_acres_layer` with `None` ("centroid is ECEF, no double-transform"). -/
def compose_geometry (boundary_points : List Pt3) (label_anchors : List Pt3)
    (centroid : Pt3) (view_matrix proj_matrix : List ℚ)
    (viewport_w viewport_h : ℚ) (enu_transform : Option Mat4) :
    List (Option (ℚ × ℚ)) × List (Option (ℚ × ℚ)) × Option (ℚ × ℚ) :=
  (boundary_points.map fun p =>
      world_to_screen p view_matrix proj_matrix viewport_w viewport_h enu_transform,
   label_anchors.map fun p =>
      world_to_screen p view_matrix proj_matrix viewport_w viewport_h enu_transform,
   world_to_screen centroid view_matrix proj_matrix viewport_w viewport_h none)

/-! ### Output phase and PSD fallback (`compose.compose_image`, output part)

The filesystem is a map from path strings to file kinds; `export_psd`'s
outcome is an input (success, or a raised exception with a flag recording
whether a partial document had already been written at the target path). -/

/-- What a path holds after the run. -/
inductive FileKind
  | flatRaster
  | psdDocument
  | psdPartial
deriving DecidableEq, Repr

/-- A filesystem state. -/
def FS : Type := String → Option FileKind

/-- Write a file (creating or overwriting). -/
def fsWrite (fs : FS) (p : String) (k : FileKind) : FS :=
  fun q => if q = p then some k else fs q

/-- `os.remove`. -/
def fsRemove (fs : FS) (p : String) : FS :=
  fun q => if q = p then none else fs q

/-- Does `p` start the list `s`? -/
def prefixMatches : List Char → List Char → Bool
  | [], _ => true
  | _ :: _, [] => false
  | p :: ps, c :: cs => p == c && prefixMatches ps cs

/-- Python-style `str.replace` on character lists: replace every
non-overlapping occurrence of `pat`, left to right (for non-empty `pat`).
The fuel argument (instantiated with the length of the subject string, which
always suffices) keeps the recursion structural. -/
def replaceCharsAux : ℕ → List Char → List Char → List Char → List Char
  | 0, s, _, _ => s
  | fuel + 1, s, pat, rep =>
    match s with
    | [] => []
    | c :: rest =>
      if prefixMatches pat (c :: rest) ∧ pat ≠ [] then
        rep ++ replaceCharsAux fuel ((c :: rest).drop pat.length) pat rep
      else
        c :: replaceCharsAux fuel rest pat rep

/-- `str.replace` on strings (all occurrences, non-empty pattern). -/
def strReplace (s pat rep : String) : String :=
  ⟨replaceCharsAux s.data.length s.data pat.data rep.data⟩

/-- The outcome of the `export_psd` call. -/
inductive PsdOutcome
  | ok
  | fail (err : String) (partialWritten : Bool)

/-- The requested output format. -/
inductive OutputFormat
  | png
  | psd
  | both
deriving DecidableEq, Repr

/-- The PSD target path: `output_path` itself for format `psd`, else
`output_path.replace('.png', '.psd')`. -/
def psdPathOf (output_path : String) (fmt : OutputFormat) : String :=
  if fmt = .psd then output_path else strReplace output_path ".png" ".psd"

/-- The fallback flat-raster path: `output_path.replace('.psd', '.png')`. -/
def fallbackPngPathOf (output_path : String) : String :=
  strReplace output_path ".psd" ".png"

/-- `compose.compose_image`, output section: write the flat raster for
formats `png`/`both`; for `psd`/`both` attempt the multi-layer document and,
on any failure, warn, and if a file exists at the target path try to delete
it — the `os.remove` call is itself wrapped in `try`/`except OSError`, so
when the delete raises (`cleanupRaises = true`) the partial artifact stays
at the target path and only a further warning is printed; then fall back to
the flat raster at the substituted path.  Returns the final filesystem and
the warnings printed. -/
def output_phase (layers : List (Layer Raster)) (output_path : String)
    (fmt : OutputFormat) (psdOutcome : PsdOutcome) (cleanupRaises : Bool)
    (fs : FS) : FS × List String :=
  let fs := if fmt = .png ∨ fmt = .both then
      match export_flat_png layers with
      | some _ => fsWrite fs
          (if fmt = .png then output_path else strReplace output_path ".psd" ".png")
          .flatRaster
      | none => fs
    else fs
  if fmt = .psd ∨ fmt = .both then
    let psd_path := psdPathOf output_path fmt
    match psdOutcome with
    | .ok => (fsWrite fs psd_path .psdDocument, [])
    | .fail err partialWritten =>
      let fs := if partialWritten then fsWrite fs psd_path .psdPartial else fs
      let cleanup :=
        if (fs psd_path).isSome then
          if cleanupRaises then (fs, ["Could not delete partial PSD"])
          else (fsRemove fs psd_path, ([] : List String))
        else (fs, ([] : List String))
      let fs := match export_flat_png layers with
        | some _ => fsWrite cleanup.1 (fallbackPngPathOf output_path) .flatRaster
        | none => cleanup.1
      (fs, ["PSD export failed: " ++ err] ++ cleanup.2)
  else (fs, [])

/-! ## Theorems -/

theorem ten_zpow_pos (k : ℤ) : (0 : ℚ) < (10 : ℚ) ^ k :=
  zpow_pos (by norm_num) k

theorem int_log10_eq {v : ℚ} {k : ℤ} (hv : 0 < v)
    (h1 : (10 : ℚ) ^ k ≤ v) (h2 : v < (10 : ℚ) ^ (k + 1)) : Int.log 10 v = k := by
  have hlo : k ≤ Int.log 10 v := (Int.zpow_le_iff_le_log (by norm_num) hv).mp h1
  have hhi : Int.log 10 v < k + 1 := (Int.lt_zpow_iff_log_lt (by norm_num) hv).mp h2
  omega

theorem nice_round_of_pos (v : ℚ) (hv : 0 < v) :
    nice_round v =
      (if v / (10 : ℚ) ^ Int.log 10 v ≤ 3 / 2 then 1
       else if v / (10 : ℚ) ^ Int.log 10 v ≤ 7 / 2 then 2
       else if v / (10 : ℚ) ^ Int.log 10 v ≤ 15 / 2 then 5
       else 10) * (10 : ℚ) ^ Int.log 10 v := by
  rw [nice_round, if_neg (not_le.mpr hv)]

theorem nice_round_interval (v : ℚ) (k : ℤ) (hv : 0 < v)
    (h1 : (10 : ℚ) ^ k ≤ v) (h2 : v < (10 : ℚ) ^ (k + 1)) :
    nice_round v =
      (if v / (10 : ℚ) ^ k ≤ 3 / 2 then 1
       else if v / (10 : ℚ) ^ k ≤ 7 / 2 then 2
       else if v / (10 : ℚ) ^ k ≤ 15 / 2 then 5
       else 10) * (10 : ℚ) ^ k := by
  rw [nice_round_of_pos v hv, int_log10_eq hv h1 h2]

theorem nice_round_mult (m : ℚ) (k : ℤ) (h1 : 1 ≤ m) (h2 : m < 10) :
    nice_round (m * (10 : ℚ) ^ k) =
      (if m ≤ 3 / 2 then 1 else if m ≤ 7 / 2 then 2 else if m ≤ 15 / 2 then 5
       else 10) * (10 : ℚ) ^ k := by
  have hp := ten_zpow_pos k
  have hm0 : (0 : ℚ) < m := lt_of_lt_of_le one_pos h1
  have hlow : (10 : ℚ) ^ k ≤ m * (10 : ℚ) ^ k := le_mul_of_one_le_left hp.le h1
  have hhigh : m * (10 : ℚ) ^ k < (10 : ℚ) ^ (k + 1) := by
    rw [zpow_add_one₀ (by norm_num : (10 : ℚ) ≠ 0), mul_comm ((10:ℚ) ^ k) 10]
    exact (mul_lt_mul_right hp).mpr h2
  have hfrac : m * (10 : ℚ) ^ k / (10 : ℚ) ^ k = m :=
    mul_div_cancel_right₀ m (ne_of_gt hp)
  rw [nice_round_interval (m * (10 : ℚ) ^ k) k (mul_pos hm0 hp) hlow hhigh, hfrac]

/-- C5: for every `v > 0`, with `k = ⌊log10 v⌋` (characterised by
`10^k ≤ v < 10^(k+1)`) and `f = v / 10^k`, `nice_round v` is `1·10^k` when
`f ≤ 1.5`, `2·10^k` when `1.5 < f ≤ 3.5`, `5·10^k` when `3.5 < f ≤ 7.5`, and
`10·10^k` otherwise. -/
theorem claim_C5_nice_round_cases (v : ℚ) (k : ℤ) (hv : 0 < v)
    (h1 : (10 : ℚ) ^ k ≤ v) (h2 : v < (10 : ℚ) ^ (k + 1)) :
    nice_round v =
      (if v / (10 : ℚ) ^ k ≤ 3 / 2 then 1
       else if v / (10 : ℚ) ^ k ≤ 7 / 2 then 2
       else if v / (10 : ℚ) ^ k ≤ 15 / 2 then 5
       else 10) * (10 : ℚ) ^ k :=
  nice_round_interval v k hv h1 h2

theorem claim_C5_nice_round_cases_witness :
    (0 : ℚ) < 2 ∧ nice_round 2 =
      (if (2 : ℚ) / (10 : ℚ) ^ (0 : ℤ) ≤ 3 / 2 then 1
       else if (2 : ℚ) / (10 : ℚ) ^ (0 : ℤ) ≤ 7 / 2 then 2
       else if (2 : ℚ) / (10 : ℚ) ^ (0 : ℤ) ≤ 15 / 2 then 5
       else 10) * (10 : ℚ) ^ (0 : ℤ) :=
  ⟨by norm_num,
   claim_C5_nice_round_cases 2 0 (by norm_num) (by norm_num) (by norm_num)⟩

/-- C9: `nice_round` is idempotent on its own outputs: for every `v > 0`,
`nice_round (nice_round v) = nice_round v`. -/
theorem claim_C9_nice_round_idem (v : ℚ) (hv : 0 < v) :
    nice_round (nice_round v) = nice_round v := by
  have hp := ten_zpow_pos (Int.log 10 v)
  have hlow : (10 : ℚ) ^ Int.log 10 v ≤ v :=
    Int.zpow_log_le_self (by norm_num) hv
  have hhigh : v < (10 : ℚ) ^ (Int.log 10 v + 1) :=
    Int.lt_zpow_succ_log_self (by norm_num) v
  have hf1 : 1 ≤ v / (10 : ℚ) ^ Int.log 10 v := (one_le_div hp).mpr hlow
  rw [nice_round_of_pos v hv]
  by_cases c1 : v / (10 : ℚ) ^ Int.log 10 v ≤ 3 / 2
  · rw [if_pos c1, nice_round_mult 1 (Int.log 10 v) (le_refl 1) (by norm_num)]
    norm_num
  · by_cases c2 : v / (10 : ℚ) ^ Int.log 10 v ≤ 7 / 2
    · rw [if_neg c1, if_pos c2,
        nice_round_mult 2 (Int.log 10 v) (by norm_num) (by norm_num)]
      norm_num
    · by_cases c3 : v / (10 : ℚ) ^ Int.log 10 v ≤ 15 / 2
      · rw [if_neg c1, if_neg c2, if_pos c3,
          nice_round_mult 5 (Int.log 10 v) (by norm_num) (by norm_num)]
        norm_num
      · rw [if_neg c1, if_neg c2, if_neg c3]
        have h10 : (10 : ℚ) * (10 : ℚ) ^ Int.log 10 v =
            1 * (10 : ℚ) ^ (Int.log 10 v + 1) := by
          rw [zpow_add_one₀ (by norm_num : (10 : ℚ) ≠ 0)]
          ring
        rw [h10, nice_round_mult 1 (Int.log 10 v + 1) (le_refl 1) (by norm_num)]
        norm_num

theorem claim_C9_nice_round_idem_witness :
    (0 : ℚ) < 7 ∧ nice_round (nice_round 7) = nice_round 7 :=
  ⟨by norm_num, claim_C9_nice_round_idem 7 (by norm_num)⟩

theorem listMin_le {l : List ℚ} {x : ℚ} (hx : x ∈ l) : listMin l ≤ x := by
  induction l with
  | nil => cases hx
  | cons a t ih =>
    cases t with
    | nil =>
      rcases List.mem_cons.mp hx with h | h
      · simp [listMin, h]
      · cases h
    | cons b t2 =>
      rcases List.mem_cons.mp hx with h | h
      · rw [h, listMin]
        exact min_le_left _ _
      · exact le_trans (min_le_right _ _) (ih h)

theorem le_listMax {l : List ℚ} {x : ℚ} (hx : x ∈ l) : x ≤ listMax l := by
  induction l with
  | nil => cases hx
  | cons a t ih =>
    cases t with
    | nil =>
      rcases List.mem_cons.mp hx with h | h
      · simp [listMax, h]
      · cases h
    | cons b t2 =>
      rcases List.mem_cons.mp hx with h | h
      · rw [h, listMax]
        exact le_max_left _ _
      · exact le_trans (ih h) (le_max_right _ _)

theorem listMin_le_listMax {l : List ℚ} (h : l ≠ []) : listMin l ≤ listMax l := by
  cases l with
  | nil => exact absurd rfl h
  | cons a t =>
    exact le_trans (listMin_le (List.mem_cons_self a t)) (le_listMax (List.mem_cons_self a t))

theorem floor_mul_le (x cs : ℚ) (hcs : 0 < cs) : (⌊x / cs⌋ : ℚ) * cs ≤ x :=
  calc (⌊x / cs⌋ : ℚ) * cs ≤ x / cs * cs :=
        mul_le_mul_of_nonneg_right (Int.floor_le (x / cs)) hcs.le
    _ = x := div_mul_cancel₀ x (ne_of_gt hcs)

theorem le_ceil_mul (x cs : ℚ) (hcs : 0 < cs) : x ≤ (⌈x / cs⌉ : ℚ) * cs :=
  calc x = x / cs * cs := (div_mul_cancel₀ x (ne_of_gt hcs)).symm
    _ ≤ (⌈x / cs⌉ : ℚ) * cs :=
        mul_le_mul_of_nonneg_right (Int.le_ceil (x / cs)) hcs.le

theorem one_le_clamp (c : ℚ) : 1 ≤ if c < 1 then (1 : ℚ) else c := by
  split
  · exact le_refl 1
  · next h => exact not_lt.mp h

theorem cell_size_ge_one (b : List Pt3) (ef tc : ℚ) (hb : ¬ b.length < 2) :
    1 ≤ (compute_grid b ef tc).cell_size := by
  simp only [compute_grid, if_neg hb]
  exact one_le_clamp _

theorem cell_size_pos (b : List Pt3) (ef tc : ℚ) :
    0 < (compute_grid b ef tc).cell_size := by
  by_cases hb : b.length < 2
  · simp [compute_grid, hb]
  · exact lt_of_lt_of_le one_pos (cell_size_ge_one b ef tc hb)

theorem insideBboxB_eq_false {p : Pt3} {b : List Pt3}
    (h : p.e ≤ listMin (b.map Pt3.e) ∨ listMax (b.map Pt3.e) ≤ p.e ∨
         p.n ≤ listMin (b.map Pt3.n) ∨ listMax (b.map Pt3.n) ≤ p.n) :
    insideBboxB p b = false := by
  rcases h with h | h | h | h
  · simp [insideBboxB, not_lt.mpr h]
  · simp [insideBboxB, not_lt.mpr h]
  · simp [insideBboxB, not_lt.mpr h]
  · simp [insideBboxB, not_lt.mpr h]

/-- C8: for every boundary with ≥ 2 points, no grid line emitted by
`compute_grid` (at its defaults) lies strictly inside the un-extended
boundary bounding box: every emitted line has both endpoints outside it. -/
theorem claim_C8_lines_outside_bbox (b : List Pt3) (hb : 2 ≤ b.length) :
    (((compute_grid b 3 15).east_lines ++ (compute_grid b 3 15).north_lines).all
      fun l => !insideBboxB l.p0 b && !insideBboxB l.p1 b) = true := by
  have hb' : ¬ b.length < 2 := by omega
  obtain ⟨p, t, rfl⟩ : ∃ p t, b = p :: t := by
    cases b with
    | nil => simp at hb
    | cons p t => exact ⟨p, t, rfl⟩
  have hpe : p.e ∈ (p :: t).map Pt3.e := List.mem_map_of_mem Pt3.e (List.mem_cons_self p t)
  have hpn : p.n ∈ (p :: t).map Pt3.n := List.mem_map_of_mem Pt3.n (List.mem_cons_self p t)
  have hee : listMin ((p :: t).map Pt3.e) ≤ listMax ((p :: t).map Pt3.e) :=
    le_trans (listMin_le hpe) (le_listMax hpe)
  have hnn : listMin ((p :: t).map Pt3.n) ≤ listMax ((p :: t).map Pt3.n) :=
    le_trans (listMin_le hpn) (le_listMax hpn)
  have hcs : 0 < (compute_grid (p :: t) 3 15).cell_size := cell_size_pos _ 3 15
  rw [List.all_eq_true]
  intro l hl
  rw [List.mem_append] at hl
  simp only [compute_grid, if_neg hb'] at hl hcs
  set e0 := listMin ((p :: t).map Pt3.e) with he0
  set e1 := listMax ((p :: t).map Pt3.e) with he1
  set n0 := listMin ((p :: t).map Pt3.n) with hn0
  set n1 := listMax ((p :: t).map Pt3.n) with hn1
  set bb := max (e1 - e0) (n1 - n0) with hbb
  set cs := if nice_round (bb / 15) < 1 then (1 : ℚ) else nice_round (bb / 15) with hcsdef
  have hbbn : n1 - n0 ≤ bb := le_max_right _ _
  have hbbe : e1 - e0 ≤ bb := le_max_left _ _
  have hgem : (⌊((e0 + e1) / 2 - bb * 3 / 2) / cs⌋ : ℚ) * cs ≤ e0 :=
    le_trans (floor_mul_le _ cs hcs) (by linarith)
  have hgeM : e1 ≤ (⌈((e0 + e1) / 2 + bb * 3 / 2) / cs⌉ : ℚ) * cs :=
    le_trans (by linarith) (le_ceil_mul _ cs hcs)
  have hgnm : (⌊((n0 + n1) / 2 - bb * 3 / 2) / cs⌋ : ℚ) * cs ≤ n0 :=
    le_trans (floor_mul_le _ cs hcs) (by linarith)
  have hgnM : n1 ≤ (⌈((n0 + n1) / 2 + bb * 3 / 2) / cs⌉ : ℚ) * cs :=
    le_trans (by linarith) (le_ceil_mul _ cs hcs)
  rcases hl with hl | hl
  · obtain ⟨e, _, rfl⟩ := List.mem_map.mp hl
    rw [insideBboxB_eq_false (Or.inr (Or.inr (Or.inl hgnm))),
      insideBboxB_eq_false (Or.inr (Or.inr (Or.inr hgnM)))]
    rfl
  · obtain ⟨n, _, rfl⟩ := List.mem_map.mp hl
    rw [insideBboxB_eq_false (Or.inl hgem), insideBboxB_eq_false (Or.inr (Or.inl hgeM))]
    rfl

theorem claim_C8_lines_outside_bbox_witness :
    2 ≤ ([⟨0, 0, 0⟩, ⟨10, 10, 0⟩] : List Pt3).length ∧
    ((((compute_grid [⟨0, 0, 0⟩, ⟨10, 10, 0⟩] 3 15).east_lines ++
        (compute_grid [⟨0, 0, 0⟩, ⟨10, 10, 0⟩] 3 15).north_lines).all
      fun l => !insideBboxB l.p0 [⟨0, 0, 0⟩, ⟨10, 10, 0⟩] &&
               !insideBboxB l.p1 [⟨0, 0, 0⟩, ⟨10, 10, 0⟩]) = true) :=
  ⟨by decide, claim_C8_lines_outside_bbox [⟨0, 0, 0⟩, ⟨10, 10, 0⟩] (by decide)⟩

theorem stepValsAux_of_lt {lo hi cs : ℚ} (h : hi < lo) :
    ∀ n, stepValsAux n lo hi cs = [] := by
  intro n
  cases n with
  | zero => rfl
  | succ n => simp [stepValsAux, not_le.mpr h]

theorem one_le_stepFuel (lo hi cs : ℚ) : 1 ≤ stepFuel lo hi cs :=
  Nat.succ_le_succ (Nat.zero_le _)

theorem stepValsAux_congr {cs : ℚ} (hcs : 0 < cs) :
    ∀ (n m : ℕ) (lo hi : ℚ), stepFuel lo hi cs ≤ n → stepFuel lo hi cs ≤ m →
      stepValsAux n lo hi cs = stepValsAux m lo hi cs := by
  intro n
  induction n with
  | zero =>
    intro m lo hi hn _
    exact absurd (le_trans (one_le_stepFuel lo hi cs) hn) (by omega)
  | succ n ih =>
    intro m lo hi hn hm
    obtain ⟨m', rfl⟩ : ∃ m', m = m' + 1 :=
      ⟨m - 1, by have := le_trans (one_le_stepFuel lo hi cs) hm; omega⟩
    simp only [stepValsAux]
    by_cases hle : lo ≤ hi
    · rw [if_pos hle, if_pos hle]
      congr 1
      by_cases hnext : hi < lo + cs
      · rw [stepValsAux_of_lt hnext, stepValsAux_of_lt hnext]
      · push_neg at hnext
        have hfl : 1 ≤ ⌊(hi - lo) / cs⌋ := by
          apply Int.le_floor.mpr
          rw [Int.cast_one, le_div_iff₀ hcs]
          linarith
        have hkey : stepFuel (lo + cs) hi cs + 1 = stepFuel lo hi cs := by
          simp only [stepFuel]
          have hquot : (hi - (lo + cs)) / cs = (hi - lo) / cs - 1 := by
            field_simp
            ring
          rw [hquot, Int.floor_sub_one]
          omega
        have hfuel : stepFuel lo hi cs = ⌊(hi - lo) / cs⌋.toNat + 1 := rfl
        exact ih m' (lo + cs) hi (by omega) (by omega)
    · rw [if_neg hle, if_neg hle]

theorem stepValsAux_stable {cs : ℚ} (hcs : 0 < cs) (lo hi : ℚ) (extra : ℕ) :
    stepValsAux (stepFuel lo hi cs + extra) lo hi cs = stepVals lo hi cs :=
  stepValsAux_congr hcs _ _ lo hi (Nat.le_add_right _ _) (le_refl _)

/-- C10: for every boundary input (including a degenerate one whose bounding
box has zero size, where `bbox_size / target_cells = 0` and `nice_round`
returns 10), `compute_grid`'s `cell_size` is strictly positive, and ≥ 1 when
the boundary has ≥ 2 points; `nice_round` returns 10 on every non-positive
input; and with this positive `cell_size` as step every emission loop
`while e <= hi: …; e += cs` terminates — running it with any extra fuel
beyond `stepFuel` changes nothing. -/
theorem claim_C10_cell_size_invariant (b : List Pt3) (ef tc : ℚ) :
    0 < (compute_grid b ef tc).cell_size ∧
    (2 ≤ b.length → 1 ≤ (compute_grid b ef tc).cell_size) ∧
    (∀ v : ℚ, v ≤ 0 → nice_round v = 10) ∧
    (∀ lo hi : ℚ, ∀ extra : ℕ,
      stepValsAux (stepFuel lo hi (compute_grid b ef tc).cell_size + extra) lo hi
          (compute_grid b ef tc).cell_size =
        stepVals lo hi (compute_grid b ef tc).cell_size) :=
  ⟨cell_size_pos b ef tc,
   fun h2 => cell_size_ge_one b ef tc (by omega),
   fun v hv => by rw [nice_round, if_pos hv],
   fun lo hi extra => stepValsAux_stable (cell_size_pos b ef tc) lo hi extra⟩

theorem claim_C10_cell_size_invariant_witness :
    0 < (compute_grid [⟨5, 5, 0⟩, ⟨5, 5, 0⟩] 3 15).cell_size ∧
    1 ≤ (compute_grid [⟨5, 5, 0⟩, ⟨5, 5, 0⟩] 3 15).cell_size ∧
    nice_round (-1) = 10 ∧
    stepValsAux (stepFuel 0 3 (compute_grid [⟨5, 5, 0⟩, ⟨5, 5, 0⟩] 3 15).cell_size + 2) 0 3
        (compute_grid [⟨5, 5, 0⟩, ⟨5, 5, 0⟩] 3 15).cell_size =
      stepVals 0 3 (compute_grid [⟨5, 5, 0⟩, ⟨5, 5, 0⟩] 3 15).cell_size := by
  obtain ⟨hpos, hone, hnr, hterm⟩ :=
    claim_C10_cell_size_invariant [⟨5, 5, 0⟩, ⟨5, 5, 0⟩] 3 15
  exact ⟨hpos, hone (by decide), hnr (-1) (by norm_num), hterm 0 3 2⟩

theorem world_to_screen_eq (p : Pt3) (viewM projM : List ℚ) (vw vh : ℚ)
    (enu : Option Mat4) :
    world_to_screen p viewM projM vw vh enu =
      if (clip_of p viewM projM enu).w ≤ 0 then none
      else
        some (((clip_of p viewM projM enu).x / (clip_of p viewM projM enu).w + 1) *
                (1 / 2) * vw,
              (1 - (clip_of p viewM projM enu).y / (clip_of p viewM projM enu).w) *
                (1 / 2) * vh) := by
  cases enu <;> rfl

/-- C2: for every point and camera matrices, projection returns rejection
(`none`) iff the clip-space w component (computed with the frame transform,
when present, applied to the homogeneous point before the view and
projection multiplies) is ≤ 0; otherwise it returns the perspective-divided
point mapped to screen as `x = (ndc.x + 1)/2 · width` and
`y = (1 − ndc.y)/2 · height` (vertical flip), a total rational value (the
exact-arithmetic rendering of "finite, no NaN"). -/
theorem claim_C2_projection (p : Pt3) (viewM projM : List ℚ) (vw vh : ℚ)
    (enu : Option Mat4) :
    (world_to_screen p viewM projM vw vh enu = none ↔
      (clip_of p viewM projM enu).w ≤ 0) ∧
    (0 < (clip_of p viewM projM enu).w →
      world_to_screen p viewM projM vw vh enu =
        some (((clip_of p viewM projM enu).x / (clip_of p viewM projM enu).w + 1) *
                (1 / 2) * vw,
              (1 - (clip_of p viewM projM enu).y / (clip_of p viewM projM enu).w) *
                (1 / 2) * vh)) := by
  rw [world_to_screen_eq]
  constructor
  · by_cases h : (clip_of p viewM projM enu).w ≤ 0
    · simp [h]
    · simp [h]
  · intro h
    rw [if_neg (not_le.mpr h)]

theorem claim_C2_projection_witness :
    0 < (clip_of ⟨0, 0, 0⟩ identMatrixList identMatrixList none).w ∧
    world_to_screen ⟨0, 0, 0⟩ identMatrixList identMatrixList 2 2 none =
      some (((clip_of ⟨0, 0, 0⟩ identMatrixList identMatrixList none).x /
               (clip_of ⟨0, 0, 0⟩ identMatrixList identMatrixList none).w + 1) *
              (1 / 2) * 2,
            (1 - (clip_of ⟨0, 0, 0⟩ identMatrixList identMatrixList none).y /
               (clip_of ⟨0, 0, 0⟩ identMatrixList identMatrixList none).w) *
              (1 / 2) * 2) := by
  have hw : 0 < (clip_of ⟨0, 0, 0⟩ identMatrixList identMatrixList none).w := by
    norm_num [clip_of, identMatrixList, reshapeF, matVec, dot4, List.getD]
  exact ⟨hw,
    (claim_C2_projection ⟨0, 0, 0⟩ identMatrixList identMatrixList 2 2 none).2 hw⟩

/-- C7: in the composition pipeline every boundary point and every label
anchor is projected with the built `FrameTransform` (when present), while
the area-text centroid is always projected with no transform — its screen
position is the same whether or not a transform was built from the
sidecar. -/
theorem claim_C7_frame_transform_asymmetry (boundary_points label_anchors : List Pt3)
    (centroid : Pt3) (viewM projM : List ℚ) (vw vh : ℚ) (T : Mat4) :
    (compose_geometry boundary_points label_anchors centroid viewM projM vw vh
        (some T)).2.2 = world_to_screen centroid viewM projM vw vh none ∧
    (compose_geometry boundary_points label_anchors centroid viewM projM vw vh
        (some T)).2.2 =
      (compose_geometry boundary_points label_anchors centroid viewM projM vw vh
        none).2.2 ∧
    (compose_geometry boundary_points label_anchors centroid viewM projM vw vh
        (some T)).1 =
      boundary_points.map (fun p => world_to_screen p viewM projM vw vh (some T)) ∧
    (compose_geometry boundary_points label_anchors centroid viewM projM vw vh
        (some T)).2.1 =
      label_anchors.map (fun p => world_to_screen p viewM projM vw vh (some T)) :=
  ⟨rfl, rfl, rfl, rfl⟩

/-- C6: for every label with non-empty text whose anchor projects
successfully, if the projected anchor expanded by a 100px margin falls
outside the viewport the label is silently dropped — `draw_single_label`
yields nothing and the layer list is exactly the one for the surrounding
labels, with no error; otherwise a label layer is produced at the projected
position. -/
theorem claim_C6_label_margin (w h : ℚ) (t : String) (a : Pt3)
    (viewM projM : List ℚ) (vw vh : ℚ) (enu : Option Mat4) (sx sy : ℚ)
    (pre post : List (String × Pt3)) (ht : t ≠ "")
    (hp : world_to_screen a viewM projM vw vh enu = some (sx, sy)) :
    ((sx < -100 ∨ w + 100 < sx ∨ sy < -100 ∨ h + 100 < sy) →
      draw_single_label w h t a viewM projM vw vh enu = none ∧
      draw_street_label_layers w h (pre ++ (t, a) :: post) viewM projM vw vh enu =
        draw_street_label_layers w h pre viewM projM vw vh enu ++
          draw_street_label_layers w h post viewM projM vw vh enu) ∧
    (¬(sx < -100 ∨ w + 100 < sx ∨ sy < -100 ∨ h + 100 < sy) →
      draw_single_label w h t a viewM projM vw vh enu = some (sx, sy) ∧
      draw_street_label_layers w h (pre ++ (t, a) :: post) viewM projM vw vh enu =
        draw_street_label_layers w h pre viewM projM vw vh enu ++
          (t, (sx, sy)) :: draw_street_label_layers w h post viewM projM vw vh enu) := by
  constructor
  · intro hout
    have hd : draw_single_label w h t a viewM projM vw vh enu = none := by
      rw [draw_single_label, hp]
      simp only [if_pos hout]
    refine ⟨hd, ?_⟩
    rw [draw_street_label_layers, List.filterMap_append, List.filterMap_cons]
    simp only [if_neg ht, hd, Option.map_none']
    rfl
  · intro hin
    have hd : draw_single_label w h t a viewM projM vw vh enu = some (sx, sy) := by
      rw [draw_single_label, hp]
      simp only [if_neg hin]
    refine ⟨hd, ?_⟩
    rw [draw_street_label_layers, List.filterMap_append, List.filterMap_cons]
    simp only [if_neg ht, hd, Option.map_some']
    rfl

theorem claim_C6_label_margin_witness :
    ("A" : String) ≠ "" ∧
    world_to_screen ⟨0, 0, 0⟩ identMatrixList identMatrixList 2 2 none = some (1, 1) ∧
    (draw_single_label 2 2 "A" ⟨0, 0, 0⟩ identMatrixList identMatrixList 2 2 none =
        some (1, 1) ∧
      draw_street_label_layers 2 2 ([] ++ ("A", (⟨0, 0, 0⟩ : Pt3)) :: [])
          identMatrixList identMatrixList 2 2 none =
        draw_street_label_layers 2 2 [] identMatrixList identMatrixList 2 2 none ++
          ("A", ((1 : ℚ), (1 : ℚ))) ::
            draw_street_label_layers 2 2 [] identMatrixList identMatrixList 2 2 none) := by
  have hp : world_to_screen ⟨0, 0, 0⟩ identMatrixList identMatrixList 2 2 none =
      some (1, 1) := by
    norm_num [world_to_screen, identMatrixList, reshapeF, matVec, dot4, List.getD]
  refine ⟨by decide, hp, ?_⟩
  exact (claim_C6_label_margin 2 2 "A" ⟨0, 0, 0⟩ identMatrixList identMatrixList 2 2
    none 1 1 [] [] (by decide) hp).2 (by norm_num)

theorem foldl_visible_filter (l : List (Layer Raster)) (init : Raster) :
    l.foldl
        (fun composite layer =>
          if layer.visible then paintOver composite layer.surface else composite)
        init =
      (l.filter (·.visible)).foldl
        (fun composite layer => paintOver composite layer.surface) init := by
  induction l generalizing init with
  | nil => rfl
  | cons a t ih =>
    by_cases ha : a.visible
    · simp [List.filter_cons, ha, ih]
    · simp [List.filter_cons, ha, ih]

/-- C4: for every non-empty layer stack, the flattened raster paints exactly
the layers whose visible flag is true, in stack order (index 0 first), with
OVER alpha compositing onto a fresh transparent composite; hidden layers
contribute nothing. -/
theorem claim_C4_flatten_visible (layers : List (Layer Raster)) (hne : layers ≠ []) :
    export_flat_png layers = some (flattenVisibleSpec layers) := by
  cases layers with
  | nil => exact absurd rfl hne
  | cons a t =>
    rw [export_flat_png, flattenVisibleSpec, foldl_visible_filter]

theorem claim_C4_flatten_visible_witness :
    export_flat_png
        [⟨"Background", blankRaster, true⟩, ⟨"Grid (Reference)", blankRaster, false⟩] =
      some (flattenVisibleSpec
        [⟨"Background", blankRaster, true⟩, ⟨"Grid (Reference)", blankRaster, false⟩]) :=
  claim_C4_flatten_visible _ (List.cons_ne_nil _ _)

/-- C3 as stated is false on the code: with exactly one overlay failure —
label "B"'s render raises while label "A"'s render succeeds and grid,
boundary and acres all succeed — the produced stack drops the
successfully-rendered "Label: A" as well, because one try/except wraps the
whole `draw_street_label_layers` call and the raised exception discards
every label surface already produced. -/
theorem claim_C3_counterexample :
    ((compose_layers (S := ℕ) 0 (.ok 1) (.ok (some 2))
          [("A", .ok (some 3)), ("B", .error "label render raised")]
          (.ok (some 4)) "12.3 ACRES" 2).map Layer.name =
        ["Background", "Grid (Reference)", "Boundary", "12.3 ACRES"]) ∧
      "Label: A" ∉
        (compose_layers (S := ℕ) 0 (.ok 1) (.ok (some 2))
          [("A", .ok (some 3)), ("B", .error "label render raised")]
          (.ok (some 4)) "12.3 ACRES" 2).map Layer.name := by
  constructor
  · rfl
  · decide

/-- C3 amended: failures are isolated per render unit — grid, boundary, the
street-label group, and acres.  The produced stack always begins with the
background layer, and each unit's layers depend only on that unit's own
outcome, so a failure in one unit omits exactly that unit's layers and never
aborts the run; in particular a failure inside a single label's render omits
all street-label layers (the whole group's contribution), while grid,
boundary and acres failures omit only their own single layer. -/
theorem claim_C3_per_unit_isolation {S : Type} (bg : S) (gridR : Except String S)
    (boundaryR : Except String (Option S))
    (labelInputs : List (String × Except String (Option S)))
    (acresR : Except String (Option S)) (acresName : String) (stage : ℕ) :
    compose_layers bg gridR boundaryR labelInputs acresR acresName stage =
      ⟨"Background", bg, true⟩ ::
        (gridContribution gridR ++ boundaryContribution boundaryR ++
          (if 2 ≤ stage then
            labelContribution labelInputs ++ acresContribution acresName acresR
          else [])) := by
  simp only [compose_layers, gridContribution, labelContribution]
  by_cases hs : 2 ≤ stage
  · rw [if_pos hs, if_pos hs]
    cases gridR <;> cases draw_street_labels_run labelInputs <;>
      rcases boundaryR with _ | _ | _ <;> rcases acresR with _ | _ | _ <;>
      simp [boundaryContribution, acresContribution]
  · rw [if_neg hs, if_neg hs]
    cases gridR <;> rcases boundaryR with _ | _ | _ <;>
      simp [boundaryContribution, acresContribution]

theorem fsWrite_same (fs : FS) (p : String) (k : FileKind) : fsWrite fs p k p = some k := by
  simp [fsWrite]

theorem fsWrite_other (fs : FS) (p q : String) (k : FileKind) (h : q ≠ p) :
    fsWrite fs p k q = fs q := by
  simp [fsWrite, h]

theorem cleanup_ok_fst (fs : FS) (p : String) :
    (if (fs p).isSome then
        if (false : Bool) then (fs, ["Could not delete partial PSD"])
        else (fsRemove fs p, ([] : List String))
      else (fs, ([] : List String))).1 p = none := by
  by_cases h : (fs p).isSome
  · rw [if_pos h, if_neg (by simp)]
    simp [fsRemove]
  · rw [if_neg h]
    exact Option.not_isSome_iff_eq_none.mp h

/-- C1 as stated is false on the code: when constructing the multi-layer
document fails after a partial write and the cleanup `os.remove` itself
raises an `OSError`, the source's inner `except OSError` branch
(`compose.py:200-201`) only warns and leaves the partial document at the
target path — here the concrete run ends with the partial PSD still at
`out.psd`, contradicting "afterwards the multi-layer document target path
does not exist". -/
theorem claim_C1_cleanup_counterexample :
    (output_phase [⟨"Background", blankRaster, true⟩] "out.psd" .psd
        (.fail "pytoshop write failed" true) true (fun _ => none)).1
        (psdPathOf "out.psd" .psd) = some .psdPartial ∧
    (output_phase [⟨"Background", blankRaster, true⟩] "out.psd" .psd
        (.fail "pytoshop write failed" true) true (fun _ => none)).2 =
      ["PSD export failed: pytoshop write failed", "Could not delete partial PSD"] := by
  constructor
  · decide
  · decide

/-- C1 (amended): whenever constructing the multi-layer document fails — for
any error, any partial-write state, any cleanup-delete outcome and any
pre-existing file at the target path — a flattened raster exists at the path
derived by substituting the raster extension for the document extension, the
original failure is reported as a warning, and the run completes.  The
multi-layer document target path does not exist afterwards whenever the
cleanup delete succeeds; when the delete itself raises an `OSError` after a
partial write, the partial document remains at the target path and a
cleanup warning is reported as well. -/
theorem claim_C1_psd_fallback (layers : List (Layer Raster)) (op : String)
    (fmt : OutputFormat) (err : String) (pw cr : Bool) (fs0 : FS)
    (hl : layers ≠ []) (hf : fmt = .psd ∨ fmt = .both)
    (hpath : psdPathOf op fmt ≠ fallbackPngPathOf op) :
    (output_phase layers op fmt (.fail err pw) cr fs0).1 (fallbackPngPathOf op) =
      some .flatRaster ∧
    ("PSD export failed: " ++ err) ∈
      (output_phase layers op fmt (.fail err pw) cr fs0).2 ∧
    (cr = false →
      (output_phase layers op fmt (.fail err pw) cr fs0).1 (psdPathOf op fmt) = none) ∧
    (cr = true → pw = true →
      (output_phase layers op fmt (.fail err pw) cr fs0).1 (psdPathOf op fmt) =
          some .psdPartial ∧
        "Could not delete partial PSD" ∈
          (output_phase layers op fmt (.fail err pw) cr fs0).2) := by
  obtain ⟨a, t, rfl⟩ : ∃ a t, layers = a :: t := by
    cases layers with
    | nil => exact absurd rfl hl
    | cons a t => exact ⟨a, t, rfl⟩
  rcases hf with rfl | rfl
  all_goals
    simp only [output_phase, export_flat_png, psdPathOf, fallbackPngPathOf, reduceCtorEq,
      or_true, true_or, or_false, false_or, or_self, ite_true, ite_false] at hpath ⊢
  all_goals refine ⟨fsWrite_same _ _ _, List.mem_append_left _ (List.mem_singleton.mpr rfl),
    fun hcr => ?_, fun hcr hpw => ?_⟩
  any_goals
    subst hcr
    rw [fsWrite_other _ _ _ _ hpath]
    exact cleanup_ok_fst _ _
  all_goals
    subst hcr
    subst hpw
    simp only [reduceIte]
    rw [if_pos (by rw [fsWrite_same]; rfl :
      ((fsWrite _ _ FileKind.psdPartial) _).isSome = true)]
    refine ⟨?_, by simp⟩
    rw [fsWrite_other _ _ _ _ hpath]
    exact fsWrite_same _ _ _

theorem claim_C1_psd_fallback_witness :
    ([(⟨"Background", blankRaster, true⟩ : Layer Raster)] ≠ []) ∧
    ((OutputFormat.psd = .psd ∨ OutputFormat.psd = .both)) ∧
    (psdPathOf "out.psd" .psd ≠ fallbackPngPathOf "out.psd") ∧
    ((output_phase [⟨"Background", blankRaster, true⟩] "out.psd" .psd
        (.fail "pytoshop is required for PSD export" true) false (fun _ => none)).1
        (fallbackPngPathOf "out.psd") = some .flatRaster ∧
      ("PSD export failed: " ++ "pytoshop is required for PSD export") ∈
        (output_phase [⟨"Background", blankRaster, true⟩] "out.psd" .psd
          (.fail "pytoshop is required for PSD export" true) false (fun _ => none)).2 ∧
      (output_phase [⟨"Background", blankRaster, true⟩] "out.psd" .psd
        (.fail "pytoshop is required for PSD export" true) false (fun _ => none)).1
        (psdPathOf "out.psd" .psd) = none) := by
  have h1 : ([(⟨"Background", blankRaster, true⟩ : Layer Raster)] ≠ []) :=
    List.cons_ne_nil _ _
  have h2 : (OutputFormat.psd = .psd ∨ OutputFormat.psd = .both) := Or.inl rfl
  have h3 : psdPathOf "out.psd" .psd ≠ fallbackPngPathOf "out.psd" := by decide
  obtain ⟨c1, c2, c3, _⟩ :=
    claim_C1_psd_fallback [⟨"Background", blankRaster, true⟩] "out.psd" .psd
      "pytoshop is required for PSD export" true false (fun _ => none) h1 h2 h3
  exact ⟨h1, h2, h3, c1, c2, c3 rfl⟩

end Compositor
